import Mathlib

/-!
secretmessage-go: the create flow (`/slash`) and the per-team client cache.

A shallow embedding of `pkg/secretmessage/slash.go` (`PrepareAndSendSecret`,
`SlashSecret`) and `pkg/secretslack/slack.go` (`Client`,
`SendResponseUrlMessage`, `NewSlackErrorResponse`).

The Go code is effectful: it talks to Redis, posts to Slack, writes the HTTP
response, logs and labels an APM transaction.  Every effect is recorded, in
program order, as an `Event` appended to `World.trace`; the state the effects
act on (the Redis keyspace, the client cache) is carried in `World`.  What the
outside decides (the fresh identifier, whether Redis answers, whether a URL
parses, what the HTTP round trip returns, the crypto helpers that live in a
file outside this development) is read from `Env`.
-/

namespace SecretMessage

/-! ## Data model (slack-go structs, restricted to the fields the program sets) -/

/-- The `slack.AttachmentAction` struct; `Typ` is the Go field `Type`. -/
structure AttachmentAction where
  Name : String := ""
  Text : String := ""
  Typ : String := ""
  Value : String := ""
deriving DecidableEq, Repr

/-- The `slack.Attachment` struct. -/
structure Attachment where
  Title : String := ""
  Fallback : String := ""
  Text : String := ""
  CallbackID : String := ""
  Color : String := ""
  Actions : List AttachmentAction := []
deriving DecidableEq, Repr

/-- The `slack.Message` struct (its embedded `slack.Msg`). -/
structure Message where
  ResponseType : String := ""
  Text : String := ""
  ReplaceOriginal : Bool := false
  DeleteOriginal : Bool := false
  Attachments : List Attachment := []
deriving DecidableEq, Repr

/-- The `slack.SlashCommand` struct, the fields the create flow reads. -/
structure SlashCommand where
  Text : String := ""
  UserName : String := ""
  UserID : String := ""
  TeamID : String := ""
  ResponseURL : String := ""
deriving DecidableEq, Repr

/-- The constant `slack.ResponseTypeInChannel`. -/
def ResponseTypeInChannel : String := "in_channel"

/-- The constant `slack.ResponseTypeEphemeral`. -/
def ResponseTypeEphemeral : String := "ephemeral"

/-- The constant `http.StatusOK`. -/
def StatusOK : Nat := 200

/-- The constant `http.StatusInternalServerError`. -/
def StatusInternalServerError : Nat := 500

/-- The constant `gin.MIMEJSON`. -/
def MIMEJSON : String := "application/json"

/-- The constant `gin.MIMEPlain`. -/
def MIMEPlain : String := "text/plain"

/-! ## Effects -/

/-- One observable effect of the program. -/
inductive Event where
  | label (key value : String)
  | spanStart (name spanType : String)
  | spanEnd
  | log (level msg : String)
  | redisSet (key value : String) (expiration : Nat)
  | redisHGet (key field : String)
  | httpPost (uri contentType body : String)
  | respond (code : Nat) (contentType body : String)
deriving DecidableEq, Repr

/-- What `httpClient.Do` comes back with: a transport error, or a response
with a status code. -/
inductive HttpResult where
  | transportErr (err : String)
  | status (code : Nat)
deriving DecidableEq, Repr

/-- A value held under a Redis key: a string with its expiration (0: none),
or a hash of fields. -/
inductive RedisValue where
  | str (value : String) (expiration : Nat)
  | hash (fields : List (String × String))
deriving DecidableEq, Repr

/-- The object `slack.New(token, slack.OptionDebug(false))` builds. -/
structure SlackClient where
  token : String
  debug : Bool
deriving DecidableEq, Repr

/-- What the program does not decide.  `hash`, `encrypt`, `decrypt` are the
package's crypto helpers and `AppURL` its configuration, all declared outside
the files embedded here; `shortuuidNew n` is the n-th identifier
`shortuuid.New()` hands out; `redisFault n` is the error, if any, with which
the n-th Redis command fails (backend unreachable, request context done);
`newRequestErr uri` is the error of `http.NewRequestWithContext` on `uri`;
`httpDo n` is the outcome of the n-th `httpClient.Do`. -/
structure Env where
  hash : String → String
  encrypt : String → String → Except String String
  decrypt : String → String → Except String String
  AppURL : String
  shortuuidNew : Nat → String
  redisFault : Nat → Option String
  newRequestErr : String → Option String
  httpDo : Nat → HttpResult

/-- The state the program acts on.  `redis` is the keyspace, `apiClients` the
package-level map of `slack.go` (a pointer is an index into `heap`; a missing
key reads as nil, here `none`), `trace` the effects so far. -/
structure World where
  redis : String → Option RedisValue
  redisOps : Nat
  uuids : Nat
  posts : Nat
  apiClients : String → Option Nat
  heap : List SlackClient
  trace : List Event

/-- Append one effect to the trace. -/
def World.emit (w : World) (e : Event) : World :=
  { w with trace := w.trace ++ [e] }

/-- The effects of a run from `w` to `w'`. -/
def newEvents (w w' : World) : List Event :=
  w'.trace.drop w.trace.length

/-! ## encoding/json on the structs above -/

/-- The double quote. -/
def dquote : Char := Char.ofNat 34

/-- The backslash. -/
def bslash : Char := Char.ofNat 92

/-- One lower-case hexadecimal digit. -/
def hexDigit (n : Nat) : Char :=
  if n < 10 then Char.ofNat (48 + n) else Char.ofNat (87 + n)

/-- The escape `\uXXXX` of a code point below 0x10000. -/
def unicodeEscape (n : Nat) : List Char :=
  [bslash, 'u', hexDigit (n / 4096 % 16), hexDigit (n / 256 % 16),
    hexDigit (n / 16 % 16), hexDigit (n % 16)]

/-- How `encoding/json` writes one character of a string (HTML escaping on,
as `json.Marshal` has it).  Backspace and form feed get the short escapes of
Go 1.22 and later; earlier releases write them as `\u0008` and `\u000c`. -/
def escapeChar (c : Char) : List Char :=
  if c = dquote then [bslash, dquote]
  else if c = bslash then [bslash, bslash]
  else if c.toNat = 8 then [bslash, 'b']
  else if c.toNat = 12 then [bslash, 'f']
  else if c.toNat = 10 then [bslash, 'n']
  else if c.toNat = 13 then [bslash, 'r']
  else if c.toNat = 9 then [bslash, 't']
  else if c.toNat < 32 ∨ c = '<' ∨ c = '>' ∨ c = '&' ∨ c.toNat = 8232 ∨ c.toNat = 8233 then
    unicodeEscape c.toNat
  else [c]

/-- A JSON string literal. -/
def jsonString (s : String) : String :=
  String.mk (dquote :: (s.data.flatMap escapeChar ++ [dquote]))

/-- A JSON boolean. -/
def jsonBool (b : Bool) : String :=
  if b then "true" else "false"

/-- A member `"name":value`. -/
def jsonField (name value : String) : String :=
  jsonString name ++ ":" ++ value

/-- A string member under `omitempty`: left out when the string is empty. -/
def jsonOmitEmpty (name value : String) : List String :=
  if value = "" then [] else [jsonField name (jsonString value)]

/-- A JSON object of the given members. -/
def jsonObject (members : List String) : String :=
  "\x7b" ++ ",".intercalate members ++ "\x7d"

/-- A JSON array of the given elements. -/
def jsonArray (elements : List String) : String :=
  "[" ++ ",".intercalate elements ++ "]"

/-- An array member under `omitempty`: left out when the slice is empty. -/
def jsonOmitEmptyArray (name : String) (elements : List String) : List String :=
  if elements.isEmpty then [] else [jsonField name (jsonArray elements)]

/-- The JSON of an `AttachmentAction`. -/
def marshalAction (a : AttachmentAction) : String :=
  jsonObject ([jsonField "name" (jsonString a.Name), jsonField "text" (jsonString a.Text),
    jsonField "type" (jsonString a.Typ)] ++ jsonOmitEmpty "value" a.Value)

/-- The JSON of an `Attachment`.  Its `Blocks` member is a struct, which
`omitempty` never leaves out; no attachment of this program has blocks, and
the library writes the empty block set as `null`. -/
def marshalAttachment (a : Attachment) : String :=
  jsonObject (jsonOmitEmpty "color" a.Color ++ jsonOmitEmpty "fallback" a.Fallback ++
    jsonOmitEmpty "callback_id" a.CallbackID ++ jsonOmitEmpty "title" a.Title ++
    jsonOmitEmpty "text" a.Text ++ jsonOmitEmptyArray "actions" (a.Actions.map marshalAction) ++
    [jsonField "blocks" "null"])

/-- The function `json.Marshal` on a `slack.Message`: the members in the
order of the struct.  `replace_original` and `delete_original` carry no
`omitempty` and are always written; `blocks` is a struct, never left out, and
the empty block set of every message of this program is written as `null`.
The members under `omitempty` that this program never sets are at their zero
value and left out.  The encoder has no failing case on these types (strings,
booleans, slices of structs), so the result is always `ok`; the `Except` keeps
the shape of the Go signature. -/
def jsonMarshal (m : Message) : Except String String :=
  .ok (jsonObject (jsonOmitEmpty "text" m.Text ++
    jsonOmitEmptyArray "attachments" (m.Attachments.map marshalAttachment) ++
    jsonOmitEmpty "response_type" m.ResponseType ++
    [jsonField "replace_original" (jsonBool m.ReplaceOriginal),
      jsonField "delete_original" (jsonBool m.DeleteOriginal),
      jsonField "blocks" "null"]))

/-! ## Redis (go-redis commands against the keyspace) -/

/-- The command `r.Set(key, value, expiration)` and its `.Err()`: an
unconditional overwrite of whatever the key held; on a fault nothing is
written. -/
def redisSet (env : Env) (w : World) (key value : String) (expiration : Nat) :
    World × Option String :=
  let w1 := { w.emit (.redisSet key value expiration) with redisOps := w.redisOps + 1 }
  match env.redisFault w.redisOps with
  | some e => (w1, some e)
  | none =>
    ({ w1 with redis := fun k => if k = key then some (.str value expiration) else w.redis k },
      none)

/-- The command `r.HGet(key, field)` and its `.Result()`: the field of the
hash under `key`; a missing key or field is the error `redis: nil`. -/
def redisHGet (env : Env) (w : World) (key field : String) : World × Except String String :=
  let w1 := { w.emit (.redisHGet key field) with redisOps := w.redisOps + 1 }
  match env.redisFault w.redisOps with
  | some e => (w1, .error e)
  | none =>
    match w.redis key with
    | none => (w1, .error "redis: nil")
    | some (.str _ _) =>
      (w1, .error "WRONGTYPE Operation against a key holding the wrong kind of value")
    | some (.hash fields) =>
      match fields.lookup field with
      | none => (w1, .error "redis: nil")
      | some v => (w1, .ok v)

/-! ## pkg/secretslack/slack.go -/

/-- The function `Client` of `slack.go`: the team's cached API client, built
from the stored `access_token` on a miss.  The result is the pointer.  Calls
are taken one at a time, so the mutex around the insertion has no effect
here. -/
def Client (env : Env) (w : World) (teamID : String) : World × Except String Nat :=
  if teamID = "" then (w, .error "Invalid Team ID")
  else
    match w.apiClients teamID with
    | some apiClient => (w, .ok apiClient)
    | none =>
      match redisHGet env w teamID "access_token" with
      | (w1, .error err) =>
        (w1, .error ("error getting token from redis for team " ++ teamID ++ ": " ++ err))
      | (w1, .ok token) =>
        let apiClient := w1.heap.length
        ({ w1 with
            heap := w1.heap ++ [{ token := token, debug := false }]
            apiClients := fun k => if k = teamID then some apiClient else w1.apiClients k },
          .ok apiClient)

/-- The function `SendResponseUrlMessage` of `slack.go`: marshal, build the
request, post it, and fail on a transport error or a status other than 200.
The result is the Go `error` (`none` for nil). -/
def SendResponseUrlMessage (env : Env) (w : World) (uri : String) (msg : Message) :
    World × Option String :=
  match jsonMarshal msg with
  | .error err => (w, some err)
  | .ok msgBytes =>
    match env.newRequestErr uri with
    | some err => (w, some err)
    | none =>
      let w1 := { w.emit (.httpPost uri "application/json" msgBytes) with posts := w.posts + 1 }
      match env.httpDo w.posts with
      | .transportErr err => (w1, some err)
      | .status code =>
        if code ≠ StatusOK then
          (w1, some ("error: received status code from slack " ++ toString code))
        else (w1, none)

/-- The message `NewSlackErrorResponse` marshals. -/
def errorMessage (title text callbackID : String) : Message :=
  { ResponseType := ResponseTypeEphemeral
    Attachments := [{ Title := title, Fallback := title, Text := text,
                      CallbackID := callbackID, Color := "#FF0000" }] }

/-- The function `NewSlackErrorResponse` of `slack.go`: the bytes and the
response code. -/
def NewSlackErrorResponse (w : World) (title text callbackID : String) :
    World × String × Nat :=
  match jsonMarshal (errorMessage title text callbackID) with
  | .error err =>
    (w.emit (.log "error" ("error marshalling json: " ++ err)), "", StatusInternalServerError)
  | .ok responseBytes => (w, responseBytes, StatusOK)

/-! ## pkg/secretmessage/slash.go -/

/-- The value `secretResponse` of `PrepareAndSendSecret`. -/
def secretResponse (userName secretID : String) : Message :=
  { ResponseType := ResponseTypeInChannel
    DeleteOriginal := true
    Attachments := [{
      Title := userName ++ " sent a secret message"
      Fallback := userName ++ " sent a secret message"
      CallbackID := "send_secret:" ++ secretID
      Color := "#6D5692"
      Actions := [{ Name := "readMessage", Text := ":envelope: Read message",
                    Typ := "button", Value := "readMessage" }] }] }

/-- The function `PrepareAndSendSecret` of `slash.go`.  The result is the Go
`error` (`none` for nil). -/
def PrepareAndSendSecret (env : Env) (w : World) (s : SlashCommand) : World × Option String :=
  let secretID := env.shortuuidNew w.uuids
  let w0 := ({ w with uuids := w.uuids + 1 }).emit (.label "secretIDHash" (env.hash secretID))
  match env.encrypt s.Text secretID with
  | .error encryptErr =>
    let w1 := w0.emit (.label "errorCode" "encrypt_error")
    let w2 := w1.emit
      (.log "error" ("error storing secretID " ++ secretID ++ " in redis: " ++ encryptErr))
    (w2, some encryptErr)
  | .ok secretEncrypted =>
    match redisSet env w0 (env.hash secretID) secretEncrypted 0 with
    | (w1, some storeErr) =>
      let w2 := w1.emit (.label "errorCode" "redis_set_error")
      let w3 := w2.emit
        (.log "error" ("error storing secretID " ++ secretID ++ " in redis: " ++ storeErr))
      (w3, some storeErr)
    | (w1, none) =>
      let w2 := w1.emit (.spanStart "send_message" "client_request")
      match SendResponseUrlMessage env w2 s.ResponseURL (secretResponse s.UserName secretID) with
      | (w3, some sendMessageErr) =>
        let w4 := w3.emit (.label "errorCode" "send_message_error")
        let w5 := w4.emit (.log "error" ("error sending secret to slack: " ++ sendMessageErr))
        (w5.emit .spanEnd, some sendMessageErr)
      | (w3, none) => (w3.emit .spanEnd, none)

/-- The value `responseEphemeral` of `SlashSecret`. -/
def responseEphemeral (appURL : String) : Message :=
  { ResponseType := ResponseTypeEphemeral
    Text := ":wave: Hey, we're working hard updating Secret Message. In order to keep using the app, <"
      ++ appURL ++ "/auth/slack|please click here to reinstall>" }

/-- The help text of the empty-text error of `SlashSecret`. -/
def secretTextEmptyHelp : String :=
  "It looks like you tried to send a secret but forgot to provide the secret's text. You can send a secret like this: `/secret I am scared of heights`"

/-- The function `SlashSecret` of `slash.go`. -/
def SlashSecret (env : Env) (w : World) (s : SlashCommand) : World :=
  let w0 := (((w.emit (.label "userHash" (env.hash s.UserID))).emit
    (.label "teamHash" (env.hash s.TeamID))).emit
    (.label "action" "createSecret")).emit (.label "slashCommand" "/secret")
  if s.Text = "" then
    match NewSlackErrorResponse w0 "Error: secret text is empty" secretTextEmptyHelp
      "secret_text_empty" with
    | (w1, res, code) =>
      (w1.emit (.label "errorCode" "text_empty")).emit (.respond code MIMEJSON res)
  else
    match PrepareAndSendSecret env w0 s with
    | (w1, some _) =>
      match NewSlackErrorResponse w1 ":x: Sorry, an error occurred"
        "An error occurred attempting to create secret" "encrypt_error" with
      | (w2, res, code) =>
        (w2.emit (.label "errorCode" "send_secret_payload_error")).emit
          (.respond code MIMEJSON res)
    | (w1, none) =>
      let w2 := w1.emit (.respond StatusOK MIMEPlain "")
      match redisHGet env w2 s.TeamID "access_token" with
      | (w3, .ok _) => w3
      | (w3, .error _) =>
        let w4 := w3.emit (.log "warning"
          ("Did not find access_token for team " ++ s.TeamID ++
            " in redis... sending the please reinstall message now."))
        match SendResponseUrlMessage env w4 s.ResponseURL (responseEphemeral env.AppURL) with
        | (w5, some sendMessageEphemeralErr) =>
          w5.emit (.log "error"
            ("error sending ephemeral message to slack: " ++ sendMessageEphemeralErr))
        | (w5, none) => w5

/-! ## Reading a trace -/

/-- Is the effect a Redis write? -/
def Event.isRedisSet : Event → Bool
  | .redisSet _ _ _ => true
  | _ => false

/-- Is the effect a Redis read? -/
def Event.isRedisHGet : Event → Bool
  | .redisHGet _ _ => true
  | _ => false

/-- Is the effect an outbound HTTP request? -/
def Event.isHttpPost : Event → Bool
  | .httpPost _ _ _ => true
  | _ => false

/-- Is the effect a write of the HTTP response? -/
def Event.isRespond : Event → Bool
  | .respond _ _ _ => true
  | _ => false

/-- The formatted message of a log entry. -/
def Event.logLine : Event → Option String
  | .log _ msg => some msg
  | _ => none

/-- The log lines of a trace, in order. -/
def logLines (es : List Event) : List String :=
  es.filterMap Event.logLine

/-- The identifier the next `PrepareAndSendSecret` draws from `shortuuid.New()`. -/
def nextSecretID (env : Env) (w : World) : String :=
  env.shortuuidNew w.uuids

/-- Does `needle` occur in `line`? -/
def occursIn (needle line : String) : Prop :=
  needle.data <:+: line.data

/-! ## Go's strings.ReplaceAll -/

/-- The scan of `strings.ReplaceAll` for a non-empty `old`: left to right,
every non-overlapping occurrence of `old` becomes `new`; `skip` counts the
characters of a matched occurrence still to pass over. -/
def replaceAllScan (old new : List Char) : Nat → List Char → List Char
  | _, [] => []
  | skip + 1, _ :: cs => replaceAllScan old new skip cs
  | 0, c :: cs =>
    if old.isPrefixOf (c :: cs) then new ++ replaceAllScan old new (old.length - 1) cs
    else c :: replaceAllScan old new 0 cs

/-- The function `strings.ReplaceAll(s, old, new)`; with an empty `old` Go
puts `new` before every character and at the end. -/
def ReplaceAll (s old new : String) : String :=
  if old.data.isEmpty then String.mk (new.data ++ s.data.flatMap fun c => c :: new.data)
  else String.mk (replaceAllScan old.data new.data 0 s.data)

/-! ## A concrete environment -/

/-- Modelled from the spec: the package's `hash` is declared in a file that is
not among the sources.  This stand-in is deterministic and injective, which
is what spec 4.1 asks of it; it instantiates the environment at concrete
inputs and no general theorem depends on it. -/
def demoHash (secretID : String) : String :=
  "sha256:" ++ secretID

/-- Modelled from the spec: the package's `encrypt` is declared in a file that
is not among the sources.  This stand-in binds the text to the identifier so
that `demoDecrypt` under the same identifier gives the text back (spec 8). -/
def demoEncrypt (plaintext secretID : String) : Except String String :=
  .ok ("sealed[" ++ secretID ++ "]" ++ plaintext)

/-- Modelled from the spec: the package's `decrypt` is declared in a file that
is not among the sources.  This stand-in opens what `demoEncrypt` sealed under
the same identifier and fails on anything else. -/
def demoDecrypt (ciphertext secretID : String) : Except String String :=
  if ("sealed[" ++ secretID ++ "]").data.isPrefixOf ciphertext.data then
    .ok (String.mk (ciphertext.data.drop ("sealed[" ++ secretID ++ "]").data.length))
  else .error "cipher: message authentication failed"

/-- An environment in which everything works: Redis answers, the URL parses,
Slack replies 200. -/
def demoEnv : Env where
  hash := demoHash
  encrypt := demoEncrypt
  decrypt := demoDecrypt
  AppURL := "https://secretmessage.example"
  shortuuidNew := fun _ => "mhvXdrZT4jP5T8vBxuvm75"
  redisFault := fun _ => none
  newRequestErr := fun _ => none
  httpDo := fun _ => .status 200

/-- A fresh process: empty keyspace, empty cache, nothing done yet. -/
def emptyWorld : World where
  redis := fun _ => none
  redisOps := 0
  uuids := 0
  posts := 0
  apiClients := fun _ => none
  heap := []
  trace := []

/-- The slash command of `TestHandleSlash`. -/
def testCommand : SlashCommand where
  Text := "this is my secret"
  UserName := "imafish"
  UserID := "U1234ABCD"
  TeamID := "T1234ABCD"
  ResponseURL := "https://hooks.slack.com/commands/XXXXXXXX/00000000000/YYYYYYYYYYYYYY"

/-! ## The effects of a run, read off the environment -/

/-- The request `SendResponseUrlMessage` puts on the wire, if it gets that far. -/
def sendEvents (env : Env) (uri : String) (msg : Message) : List Event :=
  match jsonMarshal msg, env.newRequestErr uri with
  | .ok msgBytes, none => [.httpPost uri "application/json" msgBytes]
  | _, _ => []

/-- The error `SendResponseUrlMessage` returns when it is the n-th request. -/
def sendError (env : Env) (n : Nat) (uri : String) : Option String :=
  match env.newRequestErr uri with
  | some err => some err
  | none =>
    match env.httpDo n with
    | .transportErr err => some err
    | .status code =>
      if code ≠ StatusOK then some ("error: received status code from slack " ++ toString code)
      else none

/-- The keyspace after a successful `SET key value` without expiration. -/
def stored (redis : String → Option RedisValue) (key value : String) :
    String → Option RedisValue :=
  fun k => if k = key then some (.str value 0) else redis k

/-- The effects that close `PrepareAndSendSecret` after the send. -/
def sendTail : Option String → List Event
  | some err =>
    [.label "errorCode" "send_message_error",
      .log "error" ("error sending secret to slack: " ++ err), .spanEnd]
  | none => [.spanEnd]

/-- The error `PrepareAndSendSecret` returns, read off the environment: the
first of encrypt, Redis write and send that fails. -/
def createError (env : Env) (uuids redisOps posts : Nat) (s : SlashCommand) : Option String :=
  match env.encrypt s.Text (env.shortuuidNew uuids) with
  | .error e => some e
  | .ok _ =>
    match env.redisFault redisOps with
    | some e => some e
    | none => sendError env posts s.ResponseURL

/-- The world `SlashSecret` hands to `PrepareAndSendSecret`: four labels on. -/
def labelled (env : Env) (w : World) (s : SlashCommand) : World :=
  { w with trace := w.trace ++ [.label "userHash" (env.hash s.UserID),
      .label "teamHash" (env.hash s.TeamID), .label "action" "createSecret",
      .label "slashCommand" "/secret"] }

/-- The bytes `json.Marshal` gives for a message. -/
def marshalled (m : Message) : String :=
  match jsonMarshal m with
  | .ok b => b
  | .error _ => ""

/-- The result of `HGET key field`, read off the keyspace. -/
def hgetResult (env : Env) (redis : String → Option RedisValue) (redisOps : Nat)
    (key field : String) : Except String String :=
  match env.redisFault redisOps with
  | some e => .error e
  | none =>
    match redis key with
    | none => .error "redis: nil"
    | some (.str _ _) =>
      .error "WRONGTYPE Operation against a key holding the wrong kind of value"
    | some (.hash fields) =>
      match fields.lookup field with
      | none => .error "redis: nil"
      | some v => .ok v

/-- The effects of one `PrepareAndSendSecret`, read off the environment. -/
def createEvents (env : Env) (uuids redisOps posts : Nat) (s : SlashCommand) : List Event :=
  .label "secretIDHash" (env.hash (env.shortuuidNew uuids)) ::
    match env.encrypt s.Text (env.shortuuidNew uuids) with
    | .error e =>
      [.label "errorCode" "encrypt_error",
        .log "error" ("error storing secretID " ++ env.shortuuidNew uuids ++ " in redis: " ++ e)]
    | .ok c =>
      .redisSet (env.hash (env.shortuuidNew uuids)) c 0 ::
        match env.redisFault redisOps with
        | some e =>
          [.label "errorCode" "redis_set_error",
            .log "error"
              ("error storing secretID " ++ env.shortuuidNew uuids ++ " in redis: " ++ e)]
        | none =>
          .spanStart "send_message" "client_request" ::
            (sendEvents env s.ResponseURL (secretResponse s.UserName (env.shortuuidNew uuids)) ++
              sendTail (sendError env posts s.ResponseURL))

/-- The keyspace one `PrepareAndSendSecret` leaves. -/
def createRedis (env : Env) (w : World) (s : SlashCommand) : String → Option RedisValue :=
  match env.encrypt s.Text (env.shortuuidNew w.uuids), env.redisFault w.redisOps with
  | .ok c, none => stored w.redis (env.hash (env.shortuuidNew w.uuids)) c
  | _, _ => w.redis

/-- The effects of one `SlashSecret`, read off the environment and the state
it starts in. -/
def slashEvents (env : Env) (w : World) (s : SlashCommand) : List Event :=
  [.label "userHash" (env.hash s.UserID), .label "teamHash" (env.hash s.TeamID),
    .label "action" "createSecret", .label "slashCommand" "/secret"] ++
  if s.Text = "" then
    [.label "errorCode" "text_empty",
      .respond 200 "application/json"
        (marshalled (errorMessage "Error: secret text is empty" secretTextEmptyHelp
          "secret_text_empty"))]
  else
    createEvents env w.uuids w.redisOps w.posts s ++
    match createError env w.uuids w.redisOps w.posts s with
    | some _ =>
      [.label "errorCode" "send_secret_payload_error",
        .respond 200 "application/json"
          (marshalled (errorMessage ":x: Sorry, an error occurred"
            "An error occurred attempting to create secret" "encrypt_error"))]
    | none =>
      [.respond 200 "text/plain" "", .redisHGet s.TeamID "access_token"] ++
      match hgetResult env (createRedis env w s) (w.redisOps + 1) s.TeamID "access_token" with
      | .ok _ => []
      | .error _ =>
        .log "warning" ("Did not find access_token for team " ++ s.TeamID ++
            " in redis... sending the please reinstall message now.") ::
          (sendEvents env s.ResponseURL (responseEphemeral env.AppURL) ++
            match sendError env (w.posts + 1) s.ResponseURL with
            | some e => [.log "error" ("error sending ephemeral message to slack: " ++ e)]
            | none => [])

/-- The keyspace one `SlashSecret` leaves. -/
def slashRedis (env : Env) (w : World) (s : SlashCommand) : String → Option RedisValue :=
  if s.Text = "" then w.redis else createRedis env w s

/-- The environment in which the n-th `httpClient.Do` comes back with `r`
and all else is as in `env`. -/
def overrideHttp (env : Env) (n : Nat) (r : HttpResult) : Env :=
  { env with httpDo := fun m => if m = n then r else env.httpDo m }

/-- Is an `access_token` field stored in the hash under the team's key? -/
def tokenStored (redis : String → Option RedisValue) (teamID : String) : Bool :=
  match redis teamID with
  | some (.hash fields) => (fields.lookup "access_token").isSome
  | _ => false

/-- A process whose keyspace holds the access token of team T1234ABCD and
whose client cache is empty. -/
def installedWorld : World :=
  { emptyWorld with
    redis := fun k =>
      if k = "T1234ABCD" then some (.hash [("access_token", "xoxb-1234")]) else none }

/-! ## Basic facts about the effect primitives -/

@[simp] theorem emit_trace (w : World) (e : Event) : (w.emit e).trace = w.trace ++ [e] := rfl

@[simp] theorem emit_redis (w : World) (e : Event) : (w.emit e).redis = w.redis := rfl

@[simp] theorem emit_redisOps (w : World) (e : Event) : (w.emit e).redisOps = w.redisOps := rfl

@[simp] theorem emit_posts (w : World) (e : Event) : (w.emit e).posts = w.posts := rfl

@[simp] theorem emit_uuids (w : World) (e : Event) : (w.emit e).uuids = w.uuids := rfl

@[simp] theorem emit_apiClients (w : World) (e : Event) :
    (w.emit e).apiClients = w.apiClients := rfl

@[simp] theorem emit_heap (w : World) (e : Event) : (w.emit e).heap = w.heap := rfl

theorem newEvents_append (w w' : World) (es : List Event) (h : w'.trace = w.trace ++ es) :
    newEvents w w' = es := by
  simp [newEvents, h]

theorem Send_trace (env : Env) (w : World) (uri : String) (msg : Message) :
    (SendResponseUrlMessage env w uri msg).1.trace = w.trace ++ sendEvents env uri msg := by
  unfold SendResponseUrlMessage sendEvents
  simp only [jsonMarshal]
  cases env.newRequestErr uri with
  | some e => simp
  | none =>
    cases env.httpDo w.posts with
    | transportErr e => simp
    | status code => by_cases hc : code = StatusOK <;> simp [hc]

theorem Send_err (env : Env) (w : World) (uri : String) (msg : Message) :
    (SendResponseUrlMessage env w uri msg).2 = sendError env w.posts uri := by
  unfold SendResponseUrlMessage sendError
  simp only [jsonMarshal]
  cases env.newRequestErr uri with
  | some e => simp
  | none =>
    cases env.httpDo w.posts with
    | transportErr e => simp
    | status code => by_cases hc : code = StatusOK <;> simp [hc]

theorem Send_frame (env : Env) (w : World) (uri : String) (msg : Message) :
    (SendResponseUrlMessage env w uri msg).1.redis = w.redis ∧
      (SendResponseUrlMessage env w uri msg).1.redisOps = w.redisOps ∧
      (SendResponseUrlMessage env w uri msg).1.uuids = w.uuids ∧
      (SendResponseUrlMessage env w uri msg).1.apiClients = w.apiClients ∧
      (SendResponseUrlMessage env w uri msg).1.heap = w.heap := by
  unfold SendResponseUrlMessage
  simp only [jsonMarshal]
  cases env.newRequestErr uri with
  | some e => simp
  | none =>
    cases env.httpDo w.posts with
    | transportErr e => simp
    | status code => by_cases hc : code = StatusOK <;> simp [hc]

theorem Send_posts (env : Env) (w : World) (uri : String) (msg : Message) :
    (SendResponseUrlMessage env w uri msg).1.posts =
      w.posts + (sendEvents env uri msg).length := by
  unfold SendResponseUrlMessage sendEvents
  simp only [jsonMarshal]
  cases env.newRequestErr uri with
  | some e => simp
  | none =>
    cases env.httpDo w.posts with
    | transportErr e => simp
    | status code => by_cases hc : code = StatusOK <;> simp [hc]

theorem sendEvents_cases (env : Env) (uri : String) (msg : Message) :
    (env.newRequestErr uri = none ∧ ∃ body, jsonMarshal msg = .ok body ∧
        sendEvents env uri msg = [.httpPost uri "application/json" body]) ∨
      ((env.newRequestErr uri).isSome ∧ sendEvents env uri msg = []) := by
  unfold sendEvents
  simp only [jsonMarshal]
  cases env.newRequestErr uri with
  | some e => simp
  | none => simp

/-- Path 1: `encrypt` fails. -/
theorem PrepareAndSendSecret_encrypt_err (env : Env) (w : World) (s : SlashCommand) (e : String)
    (he : env.encrypt s.Text (nextSecretID env w) = .error e) :
    PrepareAndSendSecret env w s =
      ({ w with
          uuids := w.uuids + 1
          trace := w.trace ++ [.label "secretIDHash" (env.hash (nextSecretID env w)),
            .label "errorCode" "encrypt_error",
            .log "error"
              ("error storing secretID " ++ nextSecretID env w ++ " in redis: " ++ e)] },
        some e) := by
  unfold nextSecretID at he
  simp [PrepareAndSendSecret, he, World.emit, nextSecretID]

/-- Path 2: `encrypt` succeeds, the Redis write fails. -/
theorem PrepareAndSendSecret_store_err (env : Env) (w : World) (s : SlashCommand)
    (c e : String) (hc : env.encrypt s.Text (nextSecretID env w) = .ok c)
    (hf : env.redisFault w.redisOps = some e) :
    PrepareAndSendSecret env w s =
      ({ w with
          uuids := w.uuids + 1
          redisOps := w.redisOps + 1
          trace := w.trace ++ [.label "secretIDHash" (env.hash (nextSecretID env w)),
            .redisSet (env.hash (nextSecretID env w)) c 0,
            .label "errorCode" "redis_set_error",
            .log "error"
              ("error storing secretID " ++ nextSecretID env w ++ " in redis: " ++ e)] },
        some e) := by
  unfold nextSecretID at hc
  simp [PrepareAndSendSecret, hc, redisSet, hf, World.emit, nextSecretID]

theorem redisSet_ok (env : Env) (w : World) (key value : String) (expiration : Nat)
    (hf : env.redisFault w.redisOps = none) :
    redisSet env w key value expiration =
      ({ w with
          redisOps := w.redisOps + 1
          trace := w.trace ++ [.redisSet key value expiration]
          redis := fun k => if k = key then some (.str value expiration) else w.redis k },
        none) := by
  simp [redisSet, hf, World.emit]

/-- Path 3: `encrypt` and the Redis write succeed; the rest is the send. -/
theorem PrepareAndSendSecret_stored (env : Env) (w : World) (s : SlashCommand)
    (c : String) (hc : env.encrypt s.Text (nextSecretID env w) = .ok c)
    (hf : env.redisFault w.redisOps = none) :
    (PrepareAndSendSecret env w s).2 = sendError env w.posts s.ResponseURL ∧
      (PrepareAndSendSecret env w s).1.trace =
        w.trace ++ ([.label "secretIDHash" (env.hash (nextSecretID env w)),
          .redisSet (env.hash (nextSecretID env w)) c 0,
          .spanStart "send_message" "client_request"] ++
          sendEvents env s.ResponseURL (secretResponse s.UserName (nextSecretID env w)) ++
          sendTail (sendError env w.posts s.ResponseURL)) ∧
      (PrepareAndSendSecret env w s).1.redis =
        stored w.redis (env.hash (nextSecretID env w)) c ∧
      (PrepareAndSendSecret env w s).1.redisOps = w.redisOps + 1 ∧
      (PrepareAndSendSecret env w s).1.posts =
        w.posts + (sendEvents env s.ResponseURL
          (secretResponse s.UserName (nextSecretID env w))).length := by
  unfold nextSecretID at hc
  unfold PrepareAndSendSecret
  simp only [hc]
  rw [redisSet_ok _ _ _ _ _ (by simpa using hf)]
  simp only
  generalize hW : (World.emit _ (Event.spanStart _ _)) = W
  have ht := Send_trace env W s.ResponseURL (secretResponse s.UserName (env.shortuuidNew w.uuids))
  have hr := Send_err env W s.ResponseURL (secretResponse s.UserName (env.shortuuidNew w.uuids))
  have hfr := Send_frame env W s.ResponseURL
    (secretResponse s.UserName (env.shortuuidNew w.uuids))
  have hps := Send_posts env W s.ResponseURL
    (secretResponse s.UserName (env.shortuuidNew w.uuids))
  have hp : W.posts = w.posts := by rw [← hW]; rfl
  have hWt : W.trace = w.trace ++ [.label "secretIDHash" (env.hash (env.shortuuidNew w.uuids)),
      .redisSet (env.hash (env.shortuuidNew w.uuids)) c 0,
      .spanStart "send_message" "client_request"] := by rw [← hW]; simp [World.emit]
  have hWr : W.redis = stored w.redis (env.hash (env.shortuuidNew w.uuids)) c := by
    rw [← hW]; rfl
  have hWo : W.redisOps = w.redisOps + 1 := by rw [← hW]; rfl
  rw [hp] at hr hps
  rcases hsend : SendResponseUrlMessage env W s.ResponseURL
      (secretResponse s.UserName (env.shortuuidNew w.uuids)) with ⟨w3, err⟩
  rw [hsend] at ht hr hfr hps
  simp only at ht hr hfr hps
  cases err with
  | some e =>
    simp [← hr, ht, hWt, sendTail, nextSecretID, hfr.1, hfr.2.1, hWr, hWo, hps]
  | none =>
    simp [← hr, ht, hWt, sendTail, nextSecretID, hfr.1, hfr.2.1, hWr, hWo, hps]

theorem NewSlackErrorResponse_ok (w : World) (title text callbackID : String) :
    ∃ body, jsonMarshal (errorMessage title text callbackID) = .ok body ∧
      NewSlackErrorResponse w title text callbackID = (w, body, StatusOK) := by
  simp [NewSlackErrorResponse, jsonMarshal]

theorem redisHGet_world (env : Env) (w : World) (key field : String) :
    (redisHGet env w key field).1 =
      { w with redisOps := w.redisOps + 1, trace := w.trace ++ [.redisHGet key field] } := by
  unfold redisHGet
  simp only [World.emit]
  cases env.redisFault w.redisOps with
  | some e => rfl
  | none =>
    simp only
    cases w.redis key with
    | none => rfl
    | some v =>
      cases v with
      | str a b => rfl
      | hash fields =>
        simp only
        cases List.lookup field fields <;> rfl

theorem PrepareAndSendSecret_err (env : Env) (w : World) (s : SlashCommand) :
    (PrepareAndSendSecret env w s).2 = createError env w.uuids w.redisOps w.posts s := by
  unfold createError
  cases hc : env.encrypt s.Text (env.shortuuidNew w.uuids) with
  | error e => rw [PrepareAndSendSecret_encrypt_err env w s e hc]
  | ok c =>
    cases hf : env.redisFault w.redisOps with
    | some e => rw [PrepareAndSendSecret_store_err env w s c e hc hf]
    | none => exact (PrepareAndSendSecret_stored env w s c hc hf).1

theorem PrepareAndSendSecret_err_labelled (env : Env) (w : World) (s : SlashCommand) :
    (PrepareAndSendSecret env (labelled env w s) s).2 = (PrepareAndSendSecret env w s).2 := by
  rw [PrepareAndSendSecret_err, PrepareAndSendSecret_err]
  rfl

/-- The failing branch of `SlashSecret`. -/
theorem SlashSecret_create_err (env : Env) (w : World) (s : SlashCommand) (e : String)
    (hne : s.Text ≠ "") (he : (PrepareAndSendSecret env w s).2 = some e) :
    ∃ body, jsonMarshal (errorMessage ":x: Sorry, an error occurred"
        "An error occurred attempting to create secret" "encrypt_error") = .ok body ∧
      SlashSecret env w s =
        { (PrepareAndSendSecret env (labelled env w s) s).1 with
          trace := (PrepareAndSendSecret env (labelled env w s) s).1.trace ++
            [.label "errorCode" "send_secret_payload_error",
              .respond 200 "application/json" body] } := by
  rw [← PrepareAndSendSecret_err_labelled] at he
  obtain ⟨body, hb, hn⟩ := NewSlackErrorResponse_ok
    (PrepareAndSendSecret env (labelled env w s) s).1 ":x: Sorry, an error occurred"
    "An error occurred attempting to create secret" "encrypt_error"
  refine ⟨body, hb, ?_⟩
  unfold SlashSecret
  simp only [hne, if_false]
  have hl : (((w.emit (.label "userHash" (env.hash s.UserID))).emit
      (.label "teamHash" (env.hash s.TeamID))).emit
      (.label "action" "createSecret")).emit (.label "slashCommand" "/secret") =
      labelled env w s := by
    simp [World.emit, labelled]
  rw [hl]
  rcases hP : PrepareAndSendSecret env (labelled env w s) s with ⟨w1, r⟩
  rw [hP] at he hn
  simp only at he hn
  subst he
  simp only [hn]
  simp [World.emit, StatusOK, MIMEJSON]

/-- The succeeding branch of `SlashSecret`. -/
theorem SlashSecret_create_ok (env : Env) (w : World) (s : SlashCommand)
    (hne : s.Text ≠ "") (he : (PrepareAndSendSecret env w s).2 = none) :
    SlashSecret env w s =
      match redisHGet env ((PrepareAndSendSecret env (labelled env w s) s).1.emit
          (.respond 200 "text/plain" "")) s.TeamID "access_token" with
      | (w3, .ok _) => w3
      | (w3, .error _) =>
        match SendResponseUrlMessage env (w3.emit (.log "warning"
          ("Did not find access_token for team " ++ s.TeamID ++
            " in redis... sending the please reinstall message now.")))
          s.ResponseURL (responseEphemeral env.AppURL) with
        | (w5, some sendMessageEphemeralErr) =>
          w5.emit (.log "error"
            ("error sending ephemeral message to slack: " ++ sendMessageEphemeralErr))
        | (w5, none) => w5 := by
  rw [← PrepareAndSendSecret_err_labelled] at he
  unfold SlashSecret
  simp only [hne, if_false]
  have hl : (((w.emit (.label "userHash" (env.hash s.UserID))).emit
      (.label "teamHash" (env.hash s.TeamID))).emit
      (.label "action" "createSecret")).emit (.label "slashCommand" "/secret") =
      labelled env w s := by
    simp [World.emit, labelled]
  rw [hl]
  rcases hP : PrepareAndSendSecret env (labelled env w s) s with ⟨w1, r⟩
  rw [hP] at he
  simp only at he
  subst he
  simp only [StatusOK, MIMEPlain]

theorem jsonMarshal_eq (m : Message) : jsonMarshal m = .ok (marshalled m) := by
  simp [marshalled, jsonMarshal]

theorem sendEvents_eq (env : Env) (uri : String) (msg : Message) :
    sendEvents env uri msg =
      if env.newRequestErr uri = none then [.httpPost uri "application/json" (marshalled msg)]
      else [] := by
  unfold sendEvents
  rw [jsonMarshal_eq]
  cases env.newRequestErr uri <;> simp

theorem sendError_none (env : Env) (n : Nat) (uri : String) (h : sendError env n uri = none) :
    env.newRequestErr uri = none ∧ env.httpDo n = .status 200 := by
  unfold sendError at h
  cases hr : env.newRequestErr uri with
  | some e => simp [hr] at h
  | none =>
    simp only [hr] at h
    cases hd : env.httpDo n with
    | transportErr e => simp [hd] at h
    | status code =>
      simp only [hd] at h
      by_cases hc : code = StatusOK
      · simp [hc, StatusOK]
      · simp [hc] at h

theorem redisHGet_result (env : Env) (w : World) (key field : String) :
    (redisHGet env w key field).2 = hgetResult env w.redis w.redisOps key field := by
  unfold redisHGet hgetResult
  cases env.redisFault w.redisOps with
  | some e => rfl
  | none =>
    simp only
    cases w.redis key with
    | none => rfl
    | some v =>
      cases v with
      | str a b => rfl
      | hash fields =>
        simp only
        cases List.lookup field fields <;> rfl

theorem PrepareAndSendSecret_trace (env : Env) (w : World) (s : SlashCommand) :
    (PrepareAndSendSecret env w s).1.trace =
      w.trace ++ createEvents env w.uuids w.redisOps w.posts s := by
  unfold createEvents
  cases hc : env.encrypt s.Text (env.shortuuidNew w.uuids) with
  | error e =>
    rw [PrepareAndSendSecret_encrypt_err env w s e hc]
    simp [nextSecretID]
  | ok c =>
    cases hf : env.redisFault w.redisOps with
    | some e =>
      rw [PrepareAndSendSecret_store_err env w s c e hc hf]
      simp [nextSecretID]
    | none =>
      rw [(PrepareAndSendSecret_stored env w s c hc hf).2.1]
      simp [nextSecretID]

theorem PrepareAndSendSecret_redis (env : Env) (w : World) (s : SlashCommand) :
    (PrepareAndSendSecret env w s).1.redis = createRedis env w s := by
  unfold createRedis
  cases hc : env.encrypt s.Text (env.shortuuidNew w.uuids) with
  | error e => rw [PrepareAndSendSecret_encrypt_err env w s e hc]
  | ok c =>
    cases hf : env.redisFault w.redisOps with
    | some e => rw [PrepareAndSendSecret_store_err env w s c e hc hf]
    | none => exact (PrepareAndSendSecret_stored env w s c hc hf).2.2.1

theorem PrepareAndSendSecret_ok (env : Env) (w : World) (s : SlashCommand)
    (h : (PrepareAndSendSecret env w s).2 = none) :
    ∃ c, env.encrypt s.Text (nextSecretID env w) = .ok c ∧ env.redisFault w.redisOps = none ∧
      env.newRequestErr s.ResponseURL = none ∧ env.httpDo w.posts = .status 200 := by
  rw [PrepareAndSendSecret_err] at h
  unfold createError at h
  unfold nextSecretID
  cases hc : env.encrypt s.Text (env.shortuuidNew w.uuids) with
  | error e => simp [hc] at h
  | ok c =>
    simp only [hc] at h
    cases hf : env.redisFault w.redisOps with
    | some e => simp [hf] at h
    | none =>
      simp only [hf] at h
      exact ⟨c, rfl, rfl, sendError_none env _ _ h⟩

theorem SlashSecret_summary (env : Env) (w : World) (s : SlashCommand) :
    (SlashSecret env w s).trace = w.trace ++ slashEvents env w s ∧
      (SlashSecret env w s).redis = slashRedis env w s := by
  unfold slashEvents slashRedis
  by_cases hne : s.Text = ""
  · simp only [hne, if_true]
    obtain ⟨body, hb, hn⟩ := NewSlackErrorResponse_ok (labelled env w s)
      "Error: secret text is empty" secretTextEmptyHelp "secret_text_empty"
    rw [jsonMarshal_eq] at hb
    cases hb
    have hl : (((w.emit (.label "userHash" (env.hash s.UserID))).emit
        (.label "teamHash" (env.hash s.TeamID))).emit
        (.label "action" "createSecret")).emit (.label "slashCommand" "/secret") =
        labelled env w s := by
      simp [World.emit, labelled]
    unfold SlashSecret
    simp only [hne, if_true, hl, hn]
    simp [World.emit, labelled, StatusOK, MIMEJSON]
  · simp only [hne, if_false]
    have hT := PrepareAndSendSecret_trace env (labelled env w s) s
    have hR := PrepareAndSendSecret_redis env (labelled env w s) s
    have hE := PrepareAndSendSecret_err env (labelled env w s) s
    have hu : (labelled env w s).uuids = w.uuids := rfl
    have ho : (labelled env w s).redisOps = w.redisOps := rfl
    have hp : (labelled env w s).posts = w.posts := rfl
    have hcr : createRedis env (labelled env w s) s = createRedis env w s := rfl
    rw [hu, ho, hp] at hT hE
    rw [hcr] at hR
    cases hce : createError env w.uuids w.redisOps w.posts s with
    | some e =>
      have he : (PrepareAndSendSecret env w s).2 = some e := by
        rw [PrepareAndSendSecret_err]; exact hce
      obtain ⟨body, hb, hS⟩ := SlashSecret_create_err env w s e hne he
      rw [jsonMarshal_eq] at hb
      cases hb
      rw [hS]
      simp only [hT, hR]
      simp [labelled]
    | none =>
      have he : (PrepareAndSendSecret env w s).2 = none := by
        rw [PrepareAndSendSecret_err]; exact hce
      obtain ⟨c, hc, hf, hnr, hd⟩ := PrepareAndSendSecret_ok env w s he
      have hst := PrepareAndSendSecret_stored env (labelled env w s) s c hc hf
      have hops : (PrepareAndSendSecret env (labelled env w s) s).1.redisOps =
          w.redisOps + 1 := hst.2.2.2.1
      have hposts : (PrepareAndSendSecret env (labelled env w s) s).1.posts = w.posts + 1 := by
        rw [hst.2.2.2.2, sendEvents_eq]
        simp [hnr, hp]
      rw [SlashSecret_create_ok env w s hne he]
      generalize hW : (PrepareAndSendSecret env (labelled env w s) s).1 = W at *
      have hres := redisHGet_result env (W.emit (.respond 200 "text/plain" "")) s.TeamID
        "access_token"
      have hwd := redisHGet_world env (W.emit (.respond 200 "text/plain" "")) s.TeamID
        "access_token"
      simp only [emit_redis, emit_redisOps, hR, hops] at hres
      rcases hG : redisHGet env (W.emit (.respond 200 "text/plain" "")) s.TeamID
        "access_token" with ⟨w3, res⟩
      rw [hG] at hres hwd
      simp only at hres hwd
      rw [← hres]
      cases res with
      | ok tok =>
        simp only [hwd]
        simp [hT, hR, labelled]
      | error x =>
        simp only
        generalize hV : w3.emit (Event.log "warning" _) = V
        have ht := Send_trace env V s.ResponseURL (responseEphemeral env.AppURL)
        have hr := Send_err env V s.ResponseURL (responseEphemeral env.AppURL)
        have hfr := Send_frame env V s.ResponseURL (responseEphemeral env.AppURL)
        have hVp : V.posts = w.posts + 1 := by rw [← hV, hwd]; simpa using hposts
        have hVt : V.trace = W.trace ++ [.respond 200 "text/plain" "",
            .redisHGet s.TeamID "access_token",
            .log "warning" ("Did not find access_token for team " ++ s.TeamID ++
              " in redis... sending the please reinstall message now.")] := by
          rw [← hV, hwd]; simp
        have hVr : V.redis = createRedis env w s := by rw [← hV, hwd]; simpa using hR
        rw [hVp] at hr
        rcases hsend : SendResponseUrlMessage env V s.ResponseURL
          (responseEphemeral env.AppURL) with ⟨w5, err⟩
        rw [hsend] at ht hr hfr
        simp only at ht hr hfr
        rw [← hr]
        cases err with
        | some e => simp [ht, hVt, hT, hfr.1, hVr, labelled]
        | none => simp [ht, hVt, hT, hfr.1, hVr, labelled]

theorem SlashSecret_events (env : Env) (w : World) (s : SlashCommand) :
    newEvents w (SlashSecret env w s) = slashEvents env w s :=
  newEvents_append w _ _ (SlashSecret_summary env w s).1

theorem PrepareAndSendSecret_events (env : Env) (w : World) (s : SlashCommand) :
    newEvents w (PrepareAndSendSecret env w s).1 =
      createEvents env w.uuids w.redisOps w.posts s :=
  newEvents_append w _ _ (PrepareAndSendSecret_trace env w s)

theorem createError_overrideHttp (env : Env) (w : World) (s : SlashCommand) (r : HttpResult) :
    createError (overrideHttp env (w.posts + 1) r) w.uuids w.redisOps w.posts s =
      createError env w.uuids w.redisOps w.posts s := by
  simp [createError, sendError, overrideHttp]

theorem createEvents_overrideHttp (env : Env) (w : World) (s : SlashCommand) (r : HttpResult) :
    createEvents (overrideHttp env (w.posts + 1) r) w.uuids w.redisOps w.posts s =
      createEvents env w.uuids w.redisOps w.posts s := by
  simp [createEvents, sendError, sendEvents, overrideHttp]

theorem sendTail_no_respond (o : Option String) :
    (sendTail o).filter Event.isRespond = [] ∧ (sendTail o).filter Event.isHttpPost = [] := by
  cases o <;> simp [sendTail, Event.isRespond, Event.isHttpPost]

theorem sendEvents_no_respond (env : Env) (uri : String) (msg : Message) :
    (sendEvents env uri msg).filter Event.isRespond = [] := by
  rw [sendEvents_eq]
  by_cases hn : env.newRequestErr uri = none <;> simp [hn, Event.isRespond]

theorem createEvents_no_respond (env : Env) (u r p : Nat) (s : SlashCommand) :
    (createEvents env u r p s).filter Event.isRespond = [] := by
  unfold createEvents
  cases env.encrypt s.Text (env.shortuuidNew u) with
  | error e => simp [Event.isRespond]
  | ok c =>
    cases env.redisFault r with
    | some e => simp [Event.isRespond]
    | none =>
      simp [List.filter_cons, Event.isRespond, sendEvents_no_respond,
        (sendTail_no_respond _).1]

/-- The HTTP responses `SlashSecret` writes. -/
theorem slashEvents_respond (env : Env) (w : World) (s : SlashCommand) :
    (slashEvents env w s).filter Event.isRespond =
      if s.Text = "" then
        [.respond 200 "application/json"
          (marshalled (errorMessage "Error: secret text is empty" secretTextEmptyHelp
            "secret_text_empty"))]
      else
        match createError env w.uuids w.redisOps w.posts s with
        | some _ =>
          [.respond 200 "application/json"
            (marshalled (errorMessage ":x: Sorry, an error occurred"
              "An error occurred attempting to create secret" "encrypt_error"))]
        | none => [.respond 200 "text/plain" ""] := by
  unfold slashEvents
  by_cases hne : s.Text = ""
  · simp [hne, List.filter_cons, Event.isRespond]
  · simp only [hne, if_false]
    cases createError env w.uuids w.redisOps w.posts s with
    | some e =>
      simp [List.filter_cons, Event.isRespond, createEvents_no_respond]
    | none =>
      simp only
      cases hgetResult env (createRedis env w s) (w.redisOps + 1) s.TeamID "access_token" with
      | ok tok => simp [List.filter_cons, Event.isRespond, createEvents_no_respond]
      | error x =>
        cases sendError env (w.posts + 1) s.ResponseURL <;>
          simp [List.filter_cons, Event.isRespond, createEvents_no_respond,
            sendEvents_no_respond]

/-! ## The claims -/

/-- C1. A slash command with empty text: `SlashSecret` writes one HTTP
response, status 200, content type JSON, whose body is what
`NewSlackErrorResponse` builds: the marshalled ephemeral message with one
attachment titled "Error: secret text is empty" and callback ID
"secret_text_empty".  The run issues no Redis write, no Redis read and no
outbound request, and leaves the keyspace and the command counters as they
were. -/
theorem SlashSecret_empty_text (env : Env) (w : World) (s : SlashCommand) (h : s.Text = "") :
    ∃ body a,
      jsonMarshal (errorMessage "Error: secret text is empty" secretTextEmptyHelp
        "secret_text_empty") = .ok body ∧
      (NewSlackErrorResponse w "Error: secret text is empty" secretTextEmptyHelp
        "secret_text_empty").2 = (body, 200) ∧
      (errorMessage "Error: secret text is empty" secretTextEmptyHelp
        "secret_text_empty").ResponseType = "ephemeral" ∧
      (errorMessage "Error: secret text is empty" secretTextEmptyHelp
        "secret_text_empty").Attachments = [a] ∧
      a.Title = "Error: secret text is empty" ∧ a.CallbackID = "secret_text_empty" ∧
      (newEvents w (SlashSecret env w s)).filter Event.isRespond =
        [.respond 200 "application/json" body] ∧
      (∀ e ∈ newEvents w (SlashSecret env w s),
        e.isRedisSet = false ∧ e.isRedisHGet = false ∧ e.isHttpPost = false) ∧
      (SlashSecret env w s).redis = w.redis ∧
      (SlashSecret env w s).redisOps = w.redisOps ∧
      (SlashSecret env w s).posts = w.posts := by
  obtain ⟨body, hb, hn⟩ := NewSlackErrorResponse_ok w "Error: secret text is empty"
    secretTextEmptyHelp "secret_text_empty"
  have hw : SlashSecret env w s = { w with trace := w.trace ++
      [.label "userHash" (env.hash s.UserID), .label "teamHash" (env.hash s.TeamID),
        .label "action" "createSecret", .label "slashCommand" "/secret",
        .label "errorCode" "text_empty", .respond 200 "application/json" body] } := by
    obtain ⟨body', hb', hn'⟩ := NewSlackErrorResponse_ok (labelled env w s)
      "Error: secret text is empty" secretTextEmptyHelp "secret_text_empty"
    have hbb : body' = body := by
      rw [hb] at hb'
      cases hb'
      rfl
    subst hbb
    have hl : (((w.emit (.label "userHash" (env.hash s.UserID))).emit
        (.label "teamHash" (env.hash s.TeamID))).emit
        (.label "action" "createSecret")).emit (.label "slashCommand" "/secret") =
        labelled env w s := by
      simp [World.emit, labelled]
    unfold SlashSecret
    simp only [h, if_true, hl, hn']
    simp [World.emit, labelled, StatusOK, MIMEJSON]
  refine ⟨body, _, hb, ?_, rfl, rfl, rfl, rfl, ?_, ?_, ?_, ?_, ?_⟩
  · rw [hn]; rfl
  · rw [hw, newEvents_append w _ _ rfl]
    simp [Event.isRespond]
  · rw [hw, newEvents_append w _ _ rfl]
    intro e he
    simp only [List.mem_cons, List.mem_singleton, List.not_mem_nil, or_false] at he
    rcases he with rfl | rfl | rfl | rfl | rfl | rfl <;>
      simp [Event.isRedisSet, Event.isRedisHGet, Event.isHttpPost]
  · rw [hw]
  · rw [hw]
  · rw [hw]

/-- The instance of C1 at the test's command with its text emptied. -/
theorem SlashSecret_empty_text_witness :
    ∃ body a,
      jsonMarshal (errorMessage "Error: secret text is empty" secretTextEmptyHelp
        "secret_text_empty") = .ok body ∧
      (NewSlackErrorResponse emptyWorld "Error: secret text is empty" secretTextEmptyHelp
        "secret_text_empty").2 = (body, 200) ∧
      (errorMessage "Error: secret text is empty" secretTextEmptyHelp
        "secret_text_empty").ResponseType = "ephemeral" ∧
      (errorMessage "Error: secret text is empty" secretTextEmptyHelp
        "secret_text_empty").Attachments = [a] ∧
      a.Title = "Error: secret text is empty" ∧ a.CallbackID = "secret_text_empty" ∧
      (newEvents emptyWorld
          (SlashSecret demoEnv emptyWorld { testCommand with Text := "" })).filter
          Event.isRespond = [.respond 200 "application/json" body] ∧
      (∀ e ∈ newEvents emptyWorld (SlashSecret demoEnv emptyWorld { testCommand with Text := "" }),
        e.isRedisSet = false ∧ e.isRedisHGet = false ∧ e.isHttpPost = false) ∧
      (SlashSecret demoEnv emptyWorld { testCommand with Text := "" }).redis =
        emptyWorld.redis ∧
      (SlashSecret demoEnv emptyWorld { testCommand with Text := "" }).redisOps =
        emptyWorld.redisOps ∧
      (SlashSecret demoEnv emptyWorld { testCommand with Text := "" }).posts =
        emptyWorld.posts :=
  SlashSecret_empty_text demoEnv emptyWorld { testCommand with Text := "" } rfl

/-- C2. Inside `PrepareAndSendSecret`: when `encrypt` fails the call returns
that error, issues no outbound request and no Redis write, and the keyspace is
as before; when `encrypt` succeeds and the Redis write fails the call returns
the write's error, issues no outbound request, and the keyspace is as before.
Put the other way: whenever an outbound request appears among the call's
effects, it carries the marshalled confirmation message for the drawn
identifier, `encrypt` gave a ciphertext, the write of that ciphertext under
`hash(secretID)` succeeded and comes earlier in the trace, and the keyspace
holds the ciphertext under `hash(secretID)`. -/
theorem PrepareAndSendSecret_abort (env : Env) (w : World) (s : SlashCommand) :
    (∀ e, env.encrypt s.Text (nextSecretID env w) = .error e →
      (PrepareAndSendSecret env w s).2 = some e ∧
      (∀ ev ∈ newEvents w (PrepareAndSendSecret env w s).1,
        ev.isHttpPost = false ∧ ev.isRedisSet = false) ∧
      (PrepareAndSendSecret env w s).1.redis = w.redis) ∧
    (∀ c e, env.encrypt s.Text (nextSecretID env w) = .ok c →
      env.redisFault w.redisOps = some e →
      (PrepareAndSendSecret env w s).2 = some e ∧
      (∀ ev ∈ newEvents w (PrepareAndSendSecret env w s).1, ev.isHttpPost = false) ∧
      (PrepareAndSendSecret env w s).1.redis = w.redis) ∧
    (∀ uri contentType body,
      Event.httpPost uri contentType body ∈ newEvents w (PrepareAndSendSecret env w s).1 →
      ∃ c pre post,
        env.encrypt s.Text (nextSecretID env w) = .ok c ∧
        env.redisFault w.redisOps = none ∧
        jsonMarshal (secretResponse s.UserName (nextSecretID env w)) = .ok body ∧
        newEvents w (PrepareAndSendSecret env w s).1 =
          pre ++ Event.redisSet (env.hash (nextSecretID env w)) c 0 :: post ∧
        Event.httpPost uri contentType body ∈ post ∧
        (PrepareAndSendSecret env w s).1.redis (env.hash (nextSecretID env w)) =
          some (.str c 0)) := by
  refine ⟨?_, ?_, ?_⟩
  · intro e he
    rw [PrepareAndSendSecret_encrypt_err env w s e he]
    refine ⟨rfl, ?_, rfl⟩
    rw [newEvents_append w _ _ rfl]
    intro ev hev
    simp only [List.mem_cons, List.mem_singleton, List.not_mem_nil, or_false] at hev
    rcases hev with rfl | rfl | rfl <;> simp [Event.isRedisSet, Event.isHttpPost]
  · intro c e hc hf
    rw [PrepareAndSendSecret_store_err env w s c e hc hf]
    refine ⟨rfl, ?_, rfl⟩
    rw [newEvents_append w _ _ rfl]
    intro ev hev
    simp only [List.mem_cons, List.mem_singleton, List.not_mem_nil, or_false] at hev
    rcases hev with rfl | rfl | rfl | rfl <;> simp [Event.isHttpPost]
  · intro uri contentType body hmem
    rw [PrepareAndSendSecret_events] at hmem
    unfold createEvents at hmem
    cases hc : env.encrypt s.Text (env.shortuuidNew w.uuids) with
    | error e => simp [hc] at hmem
    | ok c =>
      cases hf : env.redisFault w.redisOps with
      | some e => simp [hc, hf] at hmem
      | none =>
        have hst := PrepareAndSendSecret_stored env w s c hc hf
        have hpost : Event.httpPost uri contentType body ∈
            Event.spanStart "send_message" "client_request" ::
              (sendEvents env s.ResponseURL
                (secretResponse s.UserName (nextSecretID env w)) ++
                sendTail (sendError env w.posts s.ResponseURL)) := by
          simpa [hc, hf, nextSecretID] using hmem
        have hbody : jsonMarshal (secretResponse s.UserName (nextSecretID env w)) =
            .ok body := by
          rw [jsonMarshal_eq]
          rw [sendEvents_eq] at hpost
          cases hs : sendError env w.posts s.ResponseURL <;>
            by_cases hn : env.newRequestErr s.ResponseURL = none <;>
            simp [hs, hn, sendTail] at hpost <;> simp [hpost]
        refine ⟨c, [.label "secretIDHash" (env.hash (nextSecretID env w))], _, hc, rfl, hbody,
          ?_, hpost, ?_⟩
        · rw [newEvents_append w _ _ hst.2.1]
          simp
        · rw [hst.2.2.1]
          simp [stored]

/-- The instance of C2 at concrete environments: one where `encrypt` fails,
one where Redis is unreachable, one where everything works. -/
theorem PrepareAndSendSecret_abort_witness :
    ((PrepareAndSendSecret
        { demoEnv with encrypt := fun _ _ => .error "crypto/aes: invalid key size 22" }
        emptyWorld testCommand).2 = some "crypto/aes: invalid key size 22") ∧
    ((PrepareAndSendSecret
        { demoEnv with redisFault := fun _ => some "dial tcp 127.0.0.1:6379: connection refused" }
        emptyWorld testCommand).2 = some "dial tcp 127.0.0.1:6379: connection refused") ∧
    (∃ c, (PrepareAndSendSecret demoEnv emptyWorld testCommand).1.redis
        (demoEnv.hash (nextSecretID demoEnv emptyWorld)) = some (.str c 0)) := by
  refine ⟨?_, ?_, ?_⟩
  · exact ((PrepareAndSendSecret_abort
      { demoEnv with encrypt := fun _ _ => .error "crypto/aes: invalid key size 22" }
      emptyWorld testCommand).1 _ rfl).1
  · exact ((PrepareAndSendSecret_abort
      { demoEnv with redisFault := fun _ => some "dial tcp 127.0.0.1:6379: connection refused" }
      emptyWorld testCommand).2.1 _ _ rfl rfl).1
  · obtain ⟨c, _, _, _, _, _, _, _, h⟩ :=
      (PrepareAndSendSecret_abort demoEnv emptyWorld testCommand).2.2
        testCommand.ResponseURL "application/json"
        (marshalled (secretResponse testCommand.UserName (nextSecretID demoEnv emptyWorld)))
        (by
          rw [PrepareAndSendSecret_events, createEvents, sendEvents_eq]
          simp [demoEnv, demoEncrypt, nextSecretID, emptyWorld, testCommand])
    exact ⟨c, h⟩

/-- C3. When `encrypt` gives a ciphertext and the Redis write succeeds,
`PrepareAndSendSecret` issues exactly one Redis write: key `hash(secretID)`,
value the ciphertext `encrypt(text, secretID)`, expiration 0.  The keyspace then
holds the ciphertext, without expiration, under that key and is unchanged at
every other key.  Every outbound request of the call goes to the response URL
and carries the marshalled `secretResponse`, an in-channel message with
exactly one attachment, whose CallbackID is "send_secret:" followed by the
same secretID; when the URL parses there is exactly one such request. -/
theorem PrepareAndSendSecret_write_and_message (env : Env) (w : World) (s : SlashCommand)
    (c : String) (hc : env.encrypt s.Text (nextSecretID env w) = .ok c)
    (hf : env.redisFault w.redisOps = none) :
    (newEvents w (PrepareAndSendSecret env w s).1).filter Event.isRedisSet =
        [.redisSet (env.hash (nextSecretID env w)) c 0] ∧
      (PrepareAndSendSecret env w s).1.redis (env.hash (nextSecretID env w)) =
        some (.str c 0) ∧
      (∀ k, k ≠ env.hash (nextSecretID env w) →
        (PrepareAndSendSecret env w s).1.redis k = w.redis k) ∧
      (∃ body a,
        jsonMarshal (secretResponse s.UserName (nextSecretID env w)) = .ok body ∧
        (secretResponse s.UserName (nextSecretID env w)).ResponseType = "in_channel" ∧
        (secretResponse s.UserName (nextSecretID env w)).Attachments = [a] ∧
        a.CallbackID = "send_secret:" ++ nextSecretID env w ∧
        (∀ ev ∈ newEvents w (PrepareAndSendSecret env w s).1, ev.isHttpPost = true →
          ev = .httpPost s.ResponseURL "application/json" body) ∧
        (env.newRequestErr s.ResponseURL = none →
          (newEvents w (PrepareAndSendSecret env w s).1).filter Event.isHttpPost =
            [.httpPost s.ResponseURL "application/json" body])) := by
  have hst := PrepareAndSendSecret_stored env w s c hc hf
  have hev := newEvents_append w _ _ hst.2.1
  have htail : ∀ o, (sendTail o).filter Event.isRedisSet = [] ∧
      (sendTail o).filter Event.isHttpPost = [] := by
    intro o
    cases o <;> simp [sendTail, Event.isRedisSet, Event.isHttpPost]
  refine ⟨?_, ?_, ?_, marshalled (secretResponse s.UserName (nextSecretID env w)), _,
    jsonMarshal_eq _, rfl, rfl, rfl, ?_, ?_⟩
  · rw [hev, sendEvents_eq]
    by_cases hn : env.newRequestErr s.ResponseURL = none <;>
      simp [hn, List.filter_cons, Event.isRedisSet, (htail _).1]
  · rw [hst.2.2.1]
    simp [stored]
  · intro k hk
    rw [hst.2.2.1]
    simp [stored, hk]
  · intro ev hmem hp
    have hin : ev ∈ (newEvents w (PrepareAndSendSecret env w s).1).filter Event.isHttpPost :=
      List.mem_filter.mpr ⟨hmem, hp⟩
    rw [hev, sendEvents_eq] at hin
    by_cases hn : env.newRequestErr s.ResponseURL = none
    · simpa [hn, List.filter_cons, Event.isHttpPost, (htail _).2] using hin
    · simp [hn, List.filter_cons, Event.isHttpPost, (htail _).2] at hin
  · intro hn
    rw [hev, sendEvents_eq]
    simp [hn, List.filter_cons, Event.isHttpPost, (htail _).2]

/-- The instance of C3 at the test's command in the working environment. -/
theorem PrepareAndSendSecret_write_and_message_witness :
    (newEvents emptyWorld (PrepareAndSendSecret demoEnv emptyWorld testCommand).1).filter
        Event.isRedisSet =
      [.redisSet (demoEnv.hash (nextSecretID demoEnv emptyWorld))
        "sealed[mhvXdrZT4jP5T8vBxuvm75]this is my secret" 0] :=
  (PrepareAndSendSecret_write_and_message demoEnv emptyWorld testCommand
    "sealed[mhvXdrZT4jP5T8vBxuvm75]this is my secret" rfl rfl).1

/-- C10. When `encrypt` and the Redis write succeed, the URL parses, and the
round trip to the response URL fails (a transport error, or a status other
than 200), `PrepareAndSendSecret` returns an error, yet the keyspace still
holds the ciphertext under `hash(secretID)`: the request was issued, the one
Redis command of the call is the write, nothing undoes it. -/
theorem PrepareAndSendSecret_no_rollback (env : Env) (w : World) (s : SlashCommand)
    (c : String) (hc : env.encrypt s.Text (nextSecretID env w) = .ok c)
    (hf : env.redisFault w.redisOps = none)
    (hurl : env.newRequestErr s.ResponseURL = none)
    (hsend : (∃ e, env.httpDo w.posts = .transportErr e) ∨
      (∃ code, env.httpDo w.posts = .status code ∧ code ≠ 200)) :
    (∃ e, (PrepareAndSendSecret env w s).2 = some e) ∧
      (PrepareAndSendSecret env w s).1.redis (env.hash (nextSecretID env w)) =
        some (.str c 0) ∧
      (newEvents w (PrepareAndSendSecret env w s).1).filter
          (fun ev => ev.isRedisSet || ev.isHttpPost) =
        [.redisSet (env.hash (nextSecretID env w)) c 0,
          .httpPost s.ResponseURL "application/json"
            (marshalled (secretResponse s.UserName (nextSecretID env w)))] ∧
      (PrepareAndSendSecret env w s).1.redisOps = w.redisOps + 1 := by
  have hst := PrepareAndSendSecret_stored env w s c hc hf
  have hev := newEvents_append w _ _ hst.2.1
  have herr : ∃ e, sendError env w.posts s.ResponseURL = some e := by
    unfold sendError
    rcases hsend with ⟨e, he⟩ | ⟨code, he, hne⟩
    · exact ⟨e, by simp [hurl, he]⟩
    · exact ⟨"error: received status code from slack " ++ toString code,
        by simp [hurl, he, StatusOK, hne]⟩
  obtain ⟨e, he⟩ := herr
  refine ⟨⟨e, by rw [hst.1, he]⟩, ?_, ?_, hst.2.2.2.1⟩
  · rw [hst.2.2.1]
    simp [stored]
  · rw [hev, sendEvents_eq, he]
    simp [hurl, sendTail, List.filter_cons, Event.isRedisSet, Event.isHttpPost]

/-- The instance of C10 where Slack answers 404. -/
theorem PrepareAndSendSecret_no_rollback_witness :
    (∃ e, (PrepareAndSendSecret { demoEnv with httpDo := fun _ => .status 404 } emptyWorld
        testCommand).2 = some e) ∧
      (PrepareAndSendSecret { demoEnv with httpDo := fun _ => .status 404 } emptyWorld
        testCommand).1.redis (demoHash "mhvXdrZT4jP5T8vBxuvm75") =
        some (.str "sealed[mhvXdrZT4jP5T8vBxuvm75]this is my secret" 0) :=
  have h := PrepareAndSendSecret_no_rollback { demoEnv with httpDo := fun _ => .status 404 }
    emptyWorld testCommand "sealed[mhvXdrZT4jP5T8vBxuvm75]this is my secret" rfl rfl rfl
    (Or.inr ⟨404, rfl, by decide⟩)
  ⟨h.1, h.2.1⟩

/-- C8. Two failed creates, in any two environments, states and commands with
non-empty text, whatever made `PrepareAndSendSecret` fail (encrypt, the Redis
write, or the send): in both runs `SlashSecret` writes exactly one HTTP
response, status 200, content type JSON, with one and the same body, the
marshalled ephemeral error message titled ":x: Sorry, an error occurred".  The
body is a constant of the program: it depends on neither the text, nor the
secretID, nor the error. -/
theorem SlashSecret_generic_error (env₁ env₂ : Env) (w₁ w₂ : World) (s₁ s₂ : SlashCommand)
    (e₁ e₂ : String) (hne₁ : s₁.Text ≠ "") (hne₂ : s₂.Text ≠ "")
    (hf₁ : (PrepareAndSendSecret env₁ w₁ s₁).2 = some e₁)
    (hf₂ : (PrepareAndSendSecret env₂ w₂ s₂).2 = some e₂) :
    ∃ body a,
      jsonMarshal (errorMessage ":x: Sorry, an error occurred"
        "An error occurred attempting to create secret" "encrypt_error") = .ok body ∧
      (errorMessage ":x: Sorry, an error occurred"
        "An error occurred attempting to create secret" "encrypt_error").ResponseType =
        "ephemeral" ∧
      (errorMessage ":x: Sorry, an error occurred"
        "An error occurred attempting to create secret" "encrypt_error").Attachments = [a] ∧
      a.Title = ":x: Sorry, an error occurred" ∧
      (newEvents w₁ (SlashSecret env₁ w₁ s₁)).filter Event.isRespond =
        [.respond 200 "application/json" body] ∧
      (newEvents w₂ (SlashSecret env₂ w₂ s₂)).filter Event.isRespond =
        [.respond 200 "application/json" body] := by
  refine ⟨_, _, jsonMarshal_eq _, rfl, rfl, rfl, ?_, ?_⟩
  · rw [PrepareAndSendSecret_err] at hf₁
    rw [SlashSecret_events, slashEvents_respond]
    simp [hne₁, hf₁]
  · rw [PrepareAndSendSecret_err] at hf₂
    rw [SlashSecret_events, slashEvents_respond]
    simp [hne₂, hf₂]

/-- The instance of C8 at a run where Redis is unreachable and a run, with
another text and another identifier, where Slack answers 500. -/
theorem SlashSecret_generic_error_witness :
    ∃ body a,
      jsonMarshal (errorMessage ":x: Sorry, an error occurred"
        "An error occurred attempting to create secret" "encrypt_error") = .ok body ∧
      (errorMessage ":x: Sorry, an error occurred"
        "An error occurred attempting to create secret" "encrypt_error").ResponseType =
        "ephemeral" ∧
      (errorMessage ":x: Sorry, an error occurred"
        "An error occurred attempting to create secret" "encrypt_error").Attachments = [a] ∧
      a.Title = ":x: Sorry, an error occurred" ∧
      (newEvents emptyWorld
        (SlashSecret { demoEnv with redisFault := fun _ => some "connection refused" }
          emptyWorld testCommand)).filter Event.isRespond =
        [.respond 200 "application/json" body] ∧
      (newEvents emptyWorld
        (SlashSecret { demoEnv with
            httpDo := fun _ => .status 500, shortuuidNew := fun _ => "7Gk2hQ9sXw3LbN5RtYcZpA" }
          emptyWorld { testCommand with Text := "launch code 0000" })).filter Event.isRespond =
        [.respond 200 "application/json" body] :=
  SlashSecret_generic_error { demoEnv with redisFault := fun _ => some "connection refused" }
    { demoEnv with
      httpDo := fun _ => .status 500, shortuuidNew := fun _ => "7Gk2hQ9sXw3LbN5RtYcZpA" }
    emptyWorld emptyWorld testCommand { testCommand with Text := "launch code 0000" }
    "connection refused" "error: received status code from slack 500"
    (by decide) (by decide) (by decide) (by decide)

theorem createEvents_posts_ok (env : Env) (w : World) (s : SlashCommand)
    (hok : createError env w.uuids w.redisOps w.posts s = none) :
    (createEvents env w.uuids w.redisOps w.posts s).filter Event.isHttpPost =
      [.httpPost s.ResponseURL "application/json"
        (marshalled (secretResponse s.UserName (nextSecretID env w)))] := by
  unfold createError at hok
  unfold createEvents
  cases hc : env.encrypt s.Text (env.shortuuidNew w.uuids) with
  | error e => simp [hc] at hok
  | ok c =>
    simp only [hc] at hok
    cases hf : env.redisFault w.redisOps with
    | some e => simp [hf] at hok
    | none =>
      simp only [hf] at hok
      have hn := (sendError_none env _ _ hok).1
      rw [sendEvents_eq]
      simp [hn, List.filter_cons, Event.isHttpPost, (sendTail_no_respond _).2, nextSecretID]

theorem slashEvents_posts_ok (env : Env) (w : World) (s : SlashCommand) (hne : s.Text ≠ "")
    (hok : createError env w.uuids w.redisOps w.posts s = none) :
    (slashEvents env w s).filter Event.isHttpPost =
      .httpPost s.ResponseURL "application/json"
          (marshalled (secretResponse s.UserName (nextSecretID env w))) ::
        match hgetResult env (createRedis env w s) (w.redisOps + 1) s.TeamID "access_token" with
        | .ok _ => []
        | .error _ =>
          [.httpPost s.ResponseURL "application/json"
            (marshalled (responseEphemeral env.AppURL))] := by
  have hn : env.newRequestErr s.ResponseURL = none := by
    unfold createError at hok
    cases hc : env.encrypt s.Text (env.shortuuidNew w.uuids) with
    | error e => simp [hc] at hok
    | ok c =>
      simp only [hc] at hok
      cases hf : env.redisFault w.redisOps with
      | some e => simp [hf] at hok
      | none =>
        simp only [hf] at hok
        exact (sendError_none env _ _ hok).1
  unfold slashEvents
  simp only [hne, if_false, hok]
  cases hgetResult env (createRedis env w s) (w.redisOps + 1) s.TeamID "access_token" with
  | ok tok =>
    simp [List.filter_cons, Event.isHttpPost, createEvents_posts_ok env w s hok]
  | error x =>
    rw [sendEvents_eq]
    cases sendError env (w.posts + 1) s.ResponseURL <;>
      simp [hn, List.filter_cons, Event.isHttpPost, createEvents_posts_ok env w s hok]

theorem lookup_after_create (env : Env) (w : World) (s : SlashCommand)
    (hok : (PrepareAndSendSecret env w s).2 = none) :
    (redisHGet env (PrepareAndSendSecret env w s).1 s.TeamID "access_token").2 =
      hgetResult env (createRedis env w s) (w.redisOps + 1) s.TeamID "access_token" := by
  obtain ⟨c, hc, hf, _, _⟩ := PrepareAndSendSecret_ok env w s hok
  rw [redisHGet_result, PrepareAndSendSecret_redis,
    (PrepareAndSendSecret_stored env w s c hc hf).2.2.2.1]

/-- C7. After a successful create (`PrepareAndSendSecret` returned nil on a
command with non-empty text) `SlashSecret` writes exactly one HTTP response:
status 200, content type text/plain, empty body, and leaves the keyspace as
the create left it.  When the lookup of the team's `access_token` fails, the
outbound requests of the run are the confirmation followed by exactly one more
request, to the response URL, carrying the marshalled "please reinstall"
message: response type ephemeral, no attachment, and as text the notice
":wave: Hey, we're working hard updating Secret Message. In order to keep
using the app, <AppURL/auth/slack|please click here to reinstall>" with the
configured AppURL.  When the lookup succeeds the confirmation is the only
outbound request.  Whatever the round trip of that second request comes back
with (`r`), the responses written and the keyspace are the same. -/
theorem SlashSecret_token_lookup (env : Env) (w : World) (s : SlashCommand)
    (hne : s.Text ≠ "") (hok : (PrepareAndSendSecret env w s).2 = none) :
    (newEvents w (SlashSecret env w s)).filter Event.isRespond =
        [.respond 200 "text/plain" ""] ∧
      (SlashSecret env w s).redis = (PrepareAndSendSecret env w s).1.redis ∧
      (∃ confirmation reinstall,
        jsonMarshal (secretResponse s.UserName (nextSecretID env w)) = .ok confirmation ∧
        jsonMarshal (responseEphemeral env.AppURL) = .ok reinstall ∧
        (responseEphemeral env.AppURL).ResponseType = "ephemeral" ∧
        (responseEphemeral env.AppURL).Text =
          ":wave: Hey, we're working hard updating Secret Message. In order to keep using the app, <"
            ++ env.AppURL ++ "/auth/slack|please click here to reinstall>" ∧
        (responseEphemeral env.AppURL).Attachments = [] ∧
        (responseEphemeral env.AppURL).DeleteOriginal = false ∧
        (responseEphemeral env.AppURL).ReplaceOriginal = false ∧
        (∀ err,
          (redisHGet env (PrepareAndSendSecret env w s).1 s.TeamID "access_token").2 =
            .error err →
          (newEvents w (SlashSecret env w s)).filter Event.isHttpPost =
            [.httpPost s.ResponseURL "application/json" confirmation,
              .httpPost s.ResponseURL "application/json" reinstall]) ∧
        (∀ token,
          (redisHGet env (PrepareAndSendSecret env w s).1 s.TeamID "access_token").2 =
            .ok token →
          (newEvents w (SlashSecret env w s)).filter Event.isHttpPost =
            [.httpPost s.ResponseURL "application/json" confirmation])) ∧
      (∀ r,
        (newEvents w (SlashSecret (overrideHttp env (w.posts + 1) r) w s)).filter
            Event.isRespond =
          (newEvents w (SlashSecret env w s)).filter Event.isRespond ∧
        (SlashSecret (overrideHttp env (w.posts + 1) r) w s).redis =
          (SlashSecret env w s).redis) := by
  have hlook := lookup_after_create env w s hok
  have hce : createError env w.uuids w.redisOps w.posts s = none := by
    rw [← PrepareAndSendSecret_err]; exact hok
  refine ⟨?_, ?_, ⟨_, _, jsonMarshal_eq _, jsonMarshal_eq _, rfl, rfl, rfl, rfl, rfl, ?_, ?_⟩,
    ?_⟩
  · rw [SlashSecret_events, slashEvents_respond]
    simp [hne, hce]
  · rw [(SlashSecret_summary env w s).2, PrepareAndSendSecret_redis]
    simp [slashRedis, hne]
  · intro err herr
    rw [hlook] at herr
    rw [SlashSecret_events, slashEvents_posts_ok env w s hne hce, herr]
  · intro token htok
    rw [hlook] at htok
    rw [SlashSecret_events, slashEvents_posts_ok env w s hne hce, htok]
  · intro r
    refine ⟨?_, ?_⟩
    · rw [SlashSecret_events, SlashSecret_events, slashEvents_respond, slashEvents_respond,
        createError_overrideHttp]
    · rw [(SlashSecret_summary _ w s).2, (SlashSecret_summary env w s).2]
      rfl

/-- The instance of C7 at the test's run: the create succeeds, no
`access_token` is stored for the team, and the second outbound request carries
the reinstall notice. -/
theorem SlashSecret_token_lookup_witness :
    (newEvents emptyWorld (SlashSecret demoEnv emptyWorld testCommand)).filter
        Event.isRespond = [.respond 200 "text/plain" ""] ∧
      (redisHGet demoEnv (PrepareAndSendSecret demoEnv emptyWorld testCommand).1
        testCommand.TeamID "access_token").2 = .error "redis: nil" ∧
      ∃ confirmation reinstall,
        jsonMarshal (responseEphemeral demoEnv.AppURL) = .ok reinstall ∧
        (newEvents emptyWorld (SlashSecret demoEnv emptyWorld testCommand)).filter
            Event.isHttpPost =
          [.httpPost testCommand.ResponseURL "application/json" confirmation,
            .httpPost testCommand.ResponseURL "application/json" reinstall] :=
  have h := SlashSecret_token_lookup demoEnv emptyWorld testCommand (by decide) (by decide)
  ⟨h.1, rfl,
    h.2.2.1.elim fun confirmation hc => hc.elim fun reinstall hr =>
      ⟨confirmation, reinstall, hr.2.1, hr.2.2.2.2.2.2.2.1 "redis: nil" rfl⟩⟩

theorem jsonMarshal_ne_empty (m : Message) : jsonMarshal m ≠ .ok "" := by
  intro h
  simp only [jsonMarshal, jsonObject, Except.ok.injEq] at h
  have hl := congrArg String.length h
  simp only [String.length_append] at hl
  have h1 : ("\x7b" : String).length = 1 := by decide
  have h0 : ("" : String).length = 0 := by decide
  omega

/-- C4.  The code at the input of `TestHandleSlash`, in the working
environment.  The create succeeds, and the one HTTP response `SlashSecret`
writes is status 200, content type text/plain, with an empty body: no response
written in the run has the JSON of a message as its body, so the in-channel
message the test unmarshals from the response is not there.  The message
titled "imafish sent a secret message", with the action ":envelope: Read
message", is the body of the first outbound request, to the response URL. -/
theorem SlashSecret_response_body_at_test_input :
    testCommand.Text ≠ "" ∧
      (PrepareAndSendSecret demoEnv emptyWorld testCommand).2 = none ∧
      (newEvents emptyWorld (SlashSecret demoEnv emptyWorld testCommand)).filter
        Event.isRespond = [.respond 200 "text/plain" ""] ∧
      (¬ ∃ code contentType body, ∃ m : Message,
        Event.respond code contentType body ∈
          newEvents emptyWorld (SlashSecret demoEnv emptyWorld testCommand) ∧
        jsonMarshal m = .ok body) ∧
      ∃ body a action,
        jsonMarshal (secretResponse "imafish" (nextSecretID demoEnv emptyWorld)) = .ok body ∧
        ((newEvents emptyWorld (SlashSecret demoEnv emptyWorld testCommand)).filter
          Event.isHttpPost).head? =
          some (.httpPost testCommand.ResponseURL "application/json" body) ∧
        (secretResponse "imafish" (nextSecretID demoEnv emptyWorld)).Attachments = [a] ∧
        a.Title = "imafish sent a secret message" ∧
        a.Actions = [action] ∧ action.Text = ":envelope: Read message" := by
  have hce : createError demoEnv emptyWorld.uuids emptyWorld.redisOps emptyWorld.posts
      testCommand = none := by decide
  have hne : testCommand.Text ≠ "" := by decide
  have hresp : (newEvents emptyWorld (SlashSecret demoEnv emptyWorld testCommand)).filter
      Event.isRespond = [.respond 200 "text/plain" ""] := by
    rw [SlashSecret_events, slashEvents_respond, hce]
    simp [testCommand]
  refine ⟨hne, by decide, hresp, ?_, _, _, _, jsonMarshal_eq _, ?_, rfl, rfl, rfl, rfl⟩
  · rintro ⟨code, contentType, body, m, hmem, hm⟩
    have hin : Event.respond code contentType body ∈
        (newEvents emptyWorld (SlashSecret demoEnv emptyWorld testCommand)).filter
          Event.isRespond := List.mem_filter.mpr ⟨hmem, rfl⟩
    rw [hresp] at hin
    simp only [List.mem_singleton, Event.respond.injEq] at hin
    rw [hin.2.2] at hm
    exact jsonMarshal_ne_empty m hm
  · rw [SlashSecret_events, slashEvents_posts_ok demoEnv emptyWorld testCommand hne hce]
    rfl

/-- C6.  The code at the input of `TestHandleSlash`, in the working
environment.  The create succeeds; the CallbackID of the one attachment of the
confirmation message is "send_secret:" followed by the identifier, so removing
every "get_secret:" from it, as the test does, leaves it whole; nothing is
stored under the hash of that string, so no stored value decrypts to the text,
and the empty value a failed read yields does not decrypt to it either.  The
ciphertext sits under the hash of the identifier alone. -/
theorem callback_get_secret_at_test_input :
    (PrepareAndSendSecret demoEnv emptyWorld testCommand).2 = none ∧
      ∃ a, (secretResponse testCommand.UserName (nextSecretID demoEnv emptyWorld)).Attachments =
          [a] ∧
        a.CallbackID = "send_secret:mhvXdrZT4jP5T8vBxuvm75" ∧
        ReplaceAll a.CallbackID "get_secret:" "" = "send_secret:mhvXdrZT4jP5T8vBxuvm75" ∧
        (SlashSecret demoEnv emptyWorld testCommand).redis
          (demoEnv.hash (ReplaceAll a.CallbackID "get_secret:" "")) = none ∧
        (¬ ∃ value expiration,
          (SlashSecret demoEnv emptyWorld testCommand).redis
            (demoEnv.hash (ReplaceAll a.CallbackID "get_secret:" "")) =
            some (.str value expiration) ∧
          demoEnv.decrypt value (ReplaceAll a.CallbackID "get_secret:" "") =
            .ok testCommand.Text) ∧
        demoEnv.decrypt "" (ReplaceAll a.CallbackID "get_secret:" "") ≠
          .ok testCommand.Text ∧
        (SlashSecret demoEnv emptyWorld testCommand).redis
          (demoEnv.hash "mhvXdrZT4jP5T8vBxuvm75") =
          some (.str "sealed[mhvXdrZT4jP5T8vBxuvm75]this is my secret" 0) ∧
        demoEnv.decrypt "sealed[mhvXdrZT4jP5T8vBxuvm75]this is my secret"
          "mhvXdrZT4jP5T8vBxuvm75" = .ok testCommand.Text := by
  have hnone : (SlashSecret demoEnv emptyWorld testCommand).redis
      (demoEnv.hash (ReplaceAll ("send_secret:" ++ nextSecretID demoEnv emptyWorld)
        "get_secret:" "")) = none := by decide
  refine ⟨by decide, _, rfl, by decide, by decide, hnone, ?_, ?_, by decide, rfl⟩
  · rintro ⟨value, expiration, hv, _⟩
    rw [hnone] at hv
    cases hv
  · intro h
    have h2 : demoEnv.decrypt "" (ReplaceAll
        ("send_secret:" ++ nextSecretID demoEnv emptyWorld) "get_secret:" "") =
        .error "cipher: message authentication failed" := rfl
    have h3 : (Except.error "cipher: message authentication failed" : Except String String) =
        .ok "this is my secret" := h2.symm.trans h
    cases h3

theorem occursIn_mid (a b c d : String) : occursIn b (a ++ b ++ c ++ d) :=
  ⟨a.data, c.data ++ d.data, by simp [String.data_append]⟩

/-- C5.  The code at the test's command on its two early failure paths.  While
Redis is unreachable the create flow logs one line and the generated secretID
occurs in it; so it does when `encrypt` fails; and the same failing run with
another secretID logs another line.  The label of the same run carries only
the hash of the secretID. -/
theorem create_flow_logs_secretID_at_failure :
    logLines (newEvents emptyWorld
        (SlashSecret { demoEnv with redisFault := fun _ => some "connection refused" }
          emptyWorld testCommand)) =
      ["error storing secretID mhvXdrZT4jP5T8vBxuvm75 in redis: connection refused"] ∧
    logLines (newEvents emptyWorld
        (SlashSecret { demoEnv with encrypt := fun _ _ => .error "cipher: invalid key size" }
          emptyWorld testCommand)) =
      ["error storing secretID mhvXdrZT4jP5T8vBxuvm75 in redis: cipher: invalid key size"] ∧
    nextSecretID { demoEnv with redisFault := fun _ => some "connection refused" } emptyWorld =
      "mhvXdrZT4jP5T8vBxuvm75" ∧
    occursIn "mhvXdrZT4jP5T8vBxuvm75"
      "error storing secretID mhvXdrZT4jP5T8vBxuvm75 in redis: connection refused" ∧
    occursIn "mhvXdrZT4jP5T8vBxuvm75"
      "error storing secretID mhvXdrZT4jP5T8vBxuvm75 in redis: cipher: invalid key size" ∧
    logLines (newEvents emptyWorld
        (SlashSecret { demoEnv with
            redisFault := fun _ => some "connection refused"
            shortuuidNew := fun _ => "7Gk2hQ9sXw3LbN5RtYcZpA" }
          emptyWorld testCommand)) ≠
      logLines (newEvents emptyWorld
        (SlashSecret { demoEnv with redisFault := fun _ => some "connection refused" }
          emptyWorld testCommand)) ∧
    Event.label "secretIDHash" (demoHash "mhvXdrZT4jP5T8vBxuvm75") ∈
      newEvents emptyWorld
        (SlashSecret { demoEnv with redisFault := fun _ => some "connection refused" }
          emptyWorld testCommand) := by
  refine ⟨by decide, by decide, rfl, ?_, ?_, by decide, ?_⟩
  · exact occursIn_mid "error storing secretID " "mhvXdrZT4jP5T8vBxuvm75" " in redis: "
      "connection refused"
  · exact occursIn_mid "error storing secretID " "mhvXdrZT4jP5T8vBxuvm75" " in redis: "
      "cipher: invalid key size"
  · rw [SlashSecret_events]
    simp [slashEvents, createEvents, testCommand, demoEnv, demoEncrypt, emptyWorld]

theorem hgetResult_reachable (env : Env) (redis : String → Option RedisValue) (n : Nat)
    (teamID : String) (hf : env.redisFault n = none) :
    (∃ token, hgetResult env redis n teamID "access_token" = .ok token) ↔
      tokenStored redis teamID = true := by
  unfold hgetResult tokenStored
  simp only [hf]
  cases redis teamID with
  | none => simp
  | some v =>
    cases v with
    | str a b => simp
    | hash fields =>
      simp only
      cases List.lookup "access_token" fields <;> simp

/-- C9, refuted as stated.  Team T1234ABCD has an `access_token` stored, the
cache has no client for it, and Redis is unreachable: `Client` returns an
error although a token is stored. -/
theorem Client_store_unreachable_counterexample :
    tokenStored installedWorld.redis "T1234ABCD" = true ∧
      installedWorld.apiClients "T1234ABCD" = none ∧
      (Client { demoEnv with redisFault := fun _ => some "dial tcp: connection refused" }
        installedWorld "T1234ABCD").2 =
        .error
          "error getting token from redis for team T1234ABCD: dial tcp: connection refused" :=
  ⟨by decide, by decide, rfl⟩

/-- C9, amended.  `Client("")` returns an error and leaves the state as it
was.  For a non-empty teamID with a cached client, `Client` returns that
client and leaves the state as it was: no Redis command is issued.  On a cache
miss `Client` succeeds exactly when the lookup `HGET teamID access_token`
succeeds, which, with Redis reachable, is exactly when an `access_token` is
stored for the team; it then builds one new client from the token, returns
it, and caches it under teamID, so that the next `Client(teamID)` returns that
same client without touching the state; when the lookup fails it returns an
error and cache and heap are as before.  In every case each cache entry
present before the call is present and the same after it, the clients already
built are untouched, and the keyspace is as before. -/
theorem Client_cache (env : Env) (w : World) (teamID : String) :
    Client env w "" = (w, .error "Invalid Team ID") ∧
    (teamID ≠ "" → ∀ p, w.apiClients teamID = some p → Client env w teamID = (w, .ok p)) ∧
    (teamID ≠ "" → w.apiClients teamID = none →
      (∀ token, (redisHGet env w teamID "access_token").2 = .ok token →
        (Client env w teamID).2 = .ok w.heap.length ∧
        (Client env w teamID).1.apiClients teamID = some w.heap.length ∧
        (Client env w teamID).1.heap = w.heap ++ [{ token := token, debug := false }] ∧
        Client env (Client env w teamID).1 teamID =
          ((Client env w teamID).1, .ok w.heap.length)) ∧
      (∀ err, (redisHGet env w teamID "access_token").2 = .error err →
        (Client env w teamID).2 =
          .error ("error getting token from redis for team " ++ teamID ++ ": " ++ err) ∧
        (Client env w teamID).1.apiClients = w.apiClients ∧
        (Client env w teamID).1.heap = w.heap) ∧
      (env.redisFault w.redisOps = none →
        ((∃ token, (redisHGet env w teamID "access_token").2 = .ok token) ↔
          tokenStored w.redis teamID = true))) ∧
    (∀ k p, w.apiClients k = some p → (Client env w teamID).1.apiClients k = some p) ∧
    (∃ built, (Client env w teamID).1.heap = w.heap ++ built) ∧
    (Client env w teamID).1.redis = w.redis := by
  have hwd := redisHGet_world env w teamID "access_token"
  refine ⟨by simp [Client], ?_, ?_, ?_, ?_, ?_⟩
  · intro hne p hp
    simp [Client, hne, hp]
  · intro hne hmiss
    refine ⟨?_, ?_, ?_⟩
    · intro token htok
      rcases hG : redisHGet env w teamID "access_token" with ⟨w1, res⟩
      rw [hG] at htok hwd
      simp only at htok hwd
      subst htok
      have hC : Client env w teamID =
          ({ w1 with
              heap := w1.heap ++ [{ token := token, debug := false }]
              apiClients := fun k => if k = teamID then some w1.heap.length
                else w1.apiClients k },
            .ok w1.heap.length) := by
        simp [Client, hne, hmiss, hG]
      have hh : w1.heap = w.heap := by rw [hwd]
      rw [hC]
      refine ⟨by simp [hh], by simp [hh], by simp [hh], ?_⟩
      simp [Client, hne, hh]
    · intro err herr
      rcases hG : redisHGet env w teamID "access_token" with ⟨w1, res⟩
      rw [hG] at herr hwd
      simp only at herr hwd
      subst herr
      have hC : Client env w teamID =
          (w1, .error ("error getting token from redis for team " ++ teamID ++ ": " ++ err)) := by
        simp [Client, hne, hmiss, hG]
      rw [hC, hwd]
      exact ⟨rfl, rfl, rfl⟩
    · intro hf
      rw [redisHGet_result]
      exact hgetResult_reachable env w.redis w.redisOps teamID hf
  · intro k p hk
    by_cases hne : teamID = ""
    · subst hne
      simpa [Client] using hk
    · cases hc : w.apiClients teamID with
      | some q => simpa [Client, hne, hc] using hk
      | none =>
        rcases hG : redisHGet env w teamID "access_token" with ⟨w1, res⟩
        rw [hG] at hwd
        simp only at hwd
        have hkt : k ≠ teamID := by
          intro h
          rw [h, hc] at hk
          cases hk
        cases res with
        | error err =>
          simp only [Client, hne, if_false, hc, hG]
          rw [hwd]
          exact hk
        | ok token =>
          simp only [Client, hne, if_false, hc, hG]
          simp [hkt, hwd, hk]
  · by_cases hne : teamID = ""
    · subst hne
      exact ⟨[], by simp [Client]⟩
    · cases hc : w.apiClients teamID with
      | some q => exact ⟨[], by simp [Client, hne, hc]⟩
      | none =>
        rcases hG : redisHGet env w teamID "access_token" with ⟨w1, res⟩
        rw [hG] at hwd
        simp only at hwd
        cases res with
        | error err => exact ⟨[], by simp [Client, hne, hc, hG, hwd]⟩
        | ok token =>
          exact ⟨[{ token := token, debug := false }], by simp [Client, hne, hc, hG, hwd]⟩
  · by_cases hne : teamID = ""
    · subst hne
      simp [Client]
    · cases hc : w.apiClients teamID with
      | some q => simp [Client, hne, hc]
      | none =>
        rcases hG : redisHGet env w teamID "access_token" with ⟨w1, res⟩
        rw [hG] at hwd
        simp only at hwd
        cases res with
        | error err => simp [Client, hne, hc, hG, hwd]
        | ok token => simp [Client, hne, hc, hG, hwd]

/-- The instance of amended C9 at team T1234ABCD with its token stored and
Redis reachable: the client is built, and the second call returns the same
client. -/
theorem Client_cache_witness :
    (Client demoEnv installedWorld "T1234ABCD").2 = .ok installedWorld.heap.length ∧
      Client demoEnv (Client demoEnv installedWorld "T1234ABCD").1 "T1234ABCD" =
        ((Client demoEnv installedWorld "T1234ABCD").1, .ok installedWorld.heap.length) :=
  have h := ((Client_cache demoEnv installedWorld "T1234ABCD").2.2.1 (by decide) rfl).1
    "xoxb-1234" rfl
  ⟨h.1, h.2.2.2⟩

end SecretMessage
